import Mathlib

/-!
Shallow embedding of tensorflow/python/autograph/pyct/compiler.py.

The module converts an AST to source text (ast_to_source) and to a loaded
module object (ast_to_object).  Text is modelled as a list of characters
(Python str).  The astor SourceGenerator, imp.load_source and
origin_info.create_source_map are external collaborators of this file and
are modelled as function parameters (visit, loader, createSourceMap).
-/

/-- Python str modelled as a list of characters. -/
abbrev Text := List Char

/-- ASCII whitespace as recognised by Python's str.rstrip. -/
def pyIsSpace (c : Char) : Bool :=
  c == ' ' || c == '\t' || c == '\n' || c == '\r' ||
  c == Char.ofNat 11 || c == Char.ofNat 12

/-- Blankness of a line: `l.rstrip()` is falsy exactly when every character
of the line is whitespace. -/
def isBlank (l : Text) : Bool := l.all pyIsSpace

/-- Model of Python's `s.split('\n')`: split a text at each newline, keeping
empty pieces.  `splitNl [] = [[]]`, matching `''.split('\n') == ['']`. -/
def splitNl : Text → List Text
  | [] => [[]]
  | c :: cs =>
    if c = '\n' then [] :: splitNl cs
    else
      match splitNl cs with
      | [] => [[c]]
      | l :: ls => (c :: l) :: ls

/-- Model of Python's `'\n'.join(lines)`. -/
def joinNl : List Text → Text
  | [] => []
  | [l] => l
  | l :: l' :: ls => l ++ '\n' :: joinNl (l' :: ls)

/-- Leading-blank-line stripping loop of ast_to_source (compiler.py, lines
64..67): a line is appended when it has non-whitespace content or when
output has already started. -/
def trimLoop (acc : List Text) : List Text → List Text
  | [] => acc
  | l :: ls =>
    if (!isBlank l) || (!acc.isEmpty) then trimLoop (acc ++ [l]) ls
    else trimLoop acc ls

/-- Model of Python's `range(a, b)` as a list of integers. -/
def pyRange (a b : Int) : List Int :=
  (List.range (b - a).toNat).map (fun i => a + (i : Int))

/-- Argument of ast_to_source / ast_to_object: a single AST node or an
ordered sequence of nodes. -/
inductive ASTInput (Node : Type) where
  | single (n : Node)
  | seq (ns : List Node)

/-- Normalization of lines 47..48 and 100..101 of compiler.py: a bare node
is wrapped into a one-element tuple; lists and tuples pass through. -/
def normalizeInput {Node : Type} : ASTInput Node → List Node
  | .single n => [n]
  | .seq ns => ns

/-- Text accumulated in `generator.result` after visiting every node and
appending a newline fragment after each one (compiler.py, lines 52..60).
`visit indentation n` is the text the astor SourceGenerator appends while
visiting node `n`; the `str` coercion of line 60 is the identity here since
fragments are already text. -/
def rawCode {Node : Type} (visit : String → Node → Text)
    (nodes : List Node) (indentation : String) : Text :=
  (nodes.map (fun n => visit indentation n ++ ['\n'])).flatten

/-- Model of ast_to_source (compiler.py, lines 36..70): render every node,
then strip the leading blank lines and rejoin with newlines. -/
def ast_to_source {Node : Type} (visit : String → Node → Text)
    (node : ASTInput Node) (indentation : String) : Text :=
  joinNl (trimLoop [] (splitNl (rawCode visit (normalizeInput node) indentation)))

/-- Observable effects of one ast_to_object call, listed in the order the
corresponding statements appear in compiler.py (lines 108..135). -/
inductive Ev where
  | createArtifact
  | writeArtifact
  | computeSourceMap
  | registerAtexit
  | loadModule
  | attachSourceMap
deriving DecidableEq

/-- Module namespace (`compiled_nodes.__dict__`): an association list from
identifiers to values. -/
abbrev PyDict (V : Type) := List (String × V)

/-- Failures ast_to_object can raise: a load failure from imp.load_source,
or the AssertionError of lines 132..134.  The collision error carries the
name of the offending unit, the reserved key, and the unit's (unmodified)
namespace at the time of failure. -/
inductive CompileError (V : Type) where
  | loadError (msg : String)
  | collision (unit : String) (key : String) (ns : PyDict V)
deriving DecidableEq

/-- Result of one ast_to_object call: the trace of performed effects and
either an error or the pair (module namespace, source text) of line 137. -/
structure CompileResult (V : Type) where
  trace : List Ev
  outcome : Except (CompileError V) (PyDict V × Text)

/-- Reserved provenance key of compiler.py, line 131. -/
def reservedKey : String := "ag_source_map__"

/-- Model of Python's `os.path.basename`: keep the part after the last
slash. -/
def pyBasename (s : String) : String :=
  String.mk (s.data.foldl (fun acc c => if c = '/' then [] else acc ++ [c]) [])

/-- Module name of compiler.py, line 109: `os.path.basename(f.name[:-3])`,
the artifact's base name with the '.py' suffix removed. -/
def moduleNameOf (fname : String) : String :=
  pyBasename (String.mk (fname.data.take (fname.data.length - 3)))

/-- Source text built by ast_to_object (compiler.py, lines 103..106): the
rendered AST text, preceded by the prefix and one newline when
`source_prefix` is truthy (None and the empty string are falsy in Python,
so neither of them is prepended). -/
def fullSource {Node : Type} (visit : String → Node → Text)
    (nodes_in : ASTInput Node) (indentation : String)
    ( source_prefix : Option String) : Text :=
  let src := ast_to_source visit (ASTInput.seq (normalizeInput nodes_in)) indentation
  match source_prefix with
  | some p => if p.data.isEmpty then src else p.data ++ '\n' :: src
  | none => src

/-- Node index list handed to origin_info.create_source_map (compiler.py,
lines 112..115).  Because `nodes` was already normalized to a tuple at
lines 100..101, the isinstance test of line 112 is always true and the
indices are always `range(-len(nodes), 0)`; the `(-1,)` branch of line 115
is unreachable. -/
def astToObjectIndices {Node : Type} (nodes_in : ASTInput Node) : List Int :=
  pyRange (-((normalizeInput nodes_in).length : Int)) 0

/-- Model of ast_to_object (compiler.py, lines 73..137).  External
collaborators are parameters: `visit` stands for the astor SourceGenerator,
`loader` for imp.load_source (given the module name and the written source
text it yields the loaded namespace or a load error), `createSourceMap` for
origin_info.create_source_map, and `fname` is the unique temporary file
name chosen by tempfile.NamedTemporaryFile. -/
def ast_to_object {Node V : Type} (visit : String → Node → Text)
    (loader : String → Text → Except String (PyDict V))
    (createSourceMap : List Node → Text → String → List Int → V)
    (fname : String) (nodes_in : ASTInput Node) (indentation : String)
    (include_source_map : Bool) ( source_prefix : Option String)
    (delete_on_exit : Bool) : CompileResult V :=
  let nodes := normalizeInput nodes_in
  let source := fullSource visit nodes_in indentation source_prefix
  let module_name := moduleNameOf fname
  let indices := astToObjectIndices nodes_in
  let preTrace := [Ev.createArtifact, Ev.writeArtifact]
      ++ (if include_source_map then [Ev.computeSourceMap] else [])
      ++ (if delete_on_exit then [Ev.registerAtexit] else [])
  match loader module_name source with
  | .error e => ⟨preTrace ++ [Ev.loadModule], .error (.loadError e)⟩
  | .ok ns =>
    if include_source_map then
      if (ns.lookup reservedKey).isSome then
        ⟨preTrace ++ [Ev.loadModule], .error (.collision module_name reservedKey ns)⟩
      else
        ⟨preTrace ++ [Ev.loadModule, Ev.attachSourceMap],
         .ok (ns ++ [(reservedKey, createSourceMap nodes source fname indices)], source)⟩
    else ⟨preTrace ++ [Ev.loadModule], .ok (ns, source)⟩

/- ### concrete instantiations used by witnesses and counterexamples -/

/-- Renderer producing astor-shaped output for a single trivial statement:
one leading newline followed by the statement text. -/
def visitFun : String → Unit → Text := fun _ _ => '\n' :: "x = 1".data

/-- Renderer over Bool nodes: `true` renders to `x = 1`, `false` to
`y = 2`, each preceded by astor's leading newline. -/
def visitTwo : String → Bool → Text :=
  fun _ b => if b then '\n' :: "x = 1".data else '\n' :: "y = 2".data

/-- Renderer agreeing with `visitTwo` on the node `true` only. -/
def visitTwoAlt : String → Bool → Text :=
  fun _ b => if b then '\n' :: "x = 1".data else '\n' :: "z = 3".data

/-- Loader yielding an empty namespace. -/
def loaderEmpty : String → Text → Except String (PyDict Nat) :=
  fun _ _ => Except.ok []

/-- Loader yielding a namespace with one ordinary binding. -/
def loaderPlain : String → Text → Except String (PyDict Nat) :=
  fun _ _ => Except.ok [("f", 1)]

/-- Loader yielding a namespace that already binds the reserved provenance
key, as when the generated code itself defined `ag_source_map__`. -/
def loaderClash : String → Text → Except String (PyDict Nat) :=
  fun _ _ => Except.ok [("f", 1), ("ag_source_map__", 9)]

/-- Loader failing with a compilation error. -/
def loaderBroken : String → Text → Except String (PyDict Nat) :=
  fun _ _ => Except.error "invalid syntax"

/-- Trivial source-map builder. -/
def smZero : List Unit → Text → String → List Int → Nat := fun _ _ _ _ => 0

/- ### helper lemmas about the text model -/

theorem splitNl_ne_nil (s : Text) : splitNl s ≠ [] := by
  induction s with
  | nil => simp [splitNl]
  | cons c cs ih =>
    simp only [splitNl]
    split
    · simp
    · cases h : splitNl cs with
      | nil => simp
      | cons l ls => simp

theorem splitNl_append (a b : Text) :
    splitNl (a ++ '\n' :: b) = splitNl a ++ splitNl b := by
  induction a with
  | nil => simp [splitNl]
  | cons c cs ih =>
    by_cases hc : c = '\n'
    · subst hc
      simp [splitNl, ih]
    · simp only [List.cons_append, splitNl, if_neg hc, List.append_eq]
      rw [ih]
      cases h : splitNl cs with
      | nil => exact absurd h (splitNl_ne_nil cs)
      | cons l ls => simp

theorem joinNl_append (xs ys : List Text) (hx : xs ≠ []) (hy : ys ≠ []) :
    joinNl (xs ++ ys) = joinNl xs ++ '\n' :: joinNl ys := by
  induction xs with
  | nil => exact absurd rfl hx
  | cons l ls ih =>
    cases ls with
    | nil =>
      cases ys with
      | nil => exact absurd rfl hy
      | cons y ys' => simp [joinNl]
    | cons l' ls' =>
      have h1 : l' :: ls' ≠ [] := by simp
      simp only [List.cons_append, joinNl]
      rw [show (l' :: ls') ++ ys = (l' :: (ls' ++ ys)) by simp] at *
      have := ih h1
      simp only [List.cons_append] at this
      cases hz : ls' ++ ys with
      | nil =>
        rcases List.append_eq_nil.mp hz with ⟨_, h2⟩
        exact absurd h2 hy
      | cons z zs =>
        rw [hz] at this
        simp [joinNl, this, hz]

theorem trimLoop_of_acc_ne_nil (ls : List Text) (acc : List Text)
    (h : acc ≠ []) : trimLoop acc ls = acc ++ ls := by
  induction ls generalizing acc with
  | nil => simp [trimLoop]
  | cons l ls' ih =>
    have hne : (!isBlank l) || (!acc.isEmpty) := by
      simp [List.isEmpty_iff, h]
    simp only [trimLoop, hne, if_true]
    rw [ih (acc ++ [l]) (by simp)]
    simp

theorem trimLoop_eq_dropWhile (ls : List Text) :
    trimLoop [] ls = ls.dropWhile isBlank := by
  induction ls with
  | nil => simp [trimLoop]
  | cons l ls' ih =>
    by_cases hb : isBlank l
    · simp [trimLoop, hb, List.dropWhile, ih]
    · have hb' : isBlank l = false := by simpa using hb
      simp only [trimLoop, hb', Bool.not_false, Bool.true_or, if_true,
        List.nil_append]
      rw [trimLoop_of_acc_ne_nil ls' [l] (by simp)]
      simp [List.dropWhile, hb']

theorem dropWhile_append_all {p : Text → Bool} (xs ys : List Text)
    (h : ∀ x ∈ xs, p x) : (xs ++ ys).dropWhile p = ys.dropWhile p := by
  induction xs with
  | nil => simp
  | cons x xs' ih =>
    have hx : p x := h x (by simp)
    simp only [List.cons_append, List.dropWhile, hx]
    exact ih (fun x hm => h x (by simp [hm]))

theorem dropWhile_append_of_ne_nil {p : Text → Bool} (xs ys : List Text)
    (h : xs.dropWhile p ≠ []) :
    (xs ++ ys).dropWhile p = xs.dropWhile p ++ ys := by
  induction xs with
  | nil => simp at h
  | cons x xs' ih =>
    by_cases hx : p x
    · simp only [List.dropWhile, hx] at h ⊢
      exact ih h
    · have hx' : p x = false := by simpa using hx
      simp [List.dropWhile, hx']

/- ### helper lemmas about namespaces -/

theorem lookup_append_self {V : Type} (ns : PyDict V) (key : String) (v : V)
    (h : ns.lookup key = none) : (ns ++ [(key, v)]).lookup key = some v := by
  induction ns with
  | nil => simp [List.lookup]
  | cons e ns' ih =>
    obtain ⟨a, b⟩ := e
    by_cases hk : key = a
    · subst hk
      simp [List.lookup] at h
    · have hk' : (key == a) = false := by simp [hk]
      simp only [List.cons_append, List.lookup, hk'] at h ⊢
      exact ih h

theorem lookup_append_other {V : Type} (ns : PyDict V) (key : String) (v : V)
    (k : String) (h : k ≠ key) :
    (ns ++ [(key, v)]).lookup k = ns.lookup k := by
  induction ns with
  | nil =>
    have hk' : (k == key) = false := by simp [h]
    simp [List.lookup, hk']
  | cons e ns' ih =>
    obtain ⟨a, b⟩ := e
    by_cases hk : k = a
    · subst hk
      simp [List.lookup]
    · have hk' : (k == a) = false := by simp [hk]
      simp only [List.cons_append, List.lookup, hk']
      exact ih

/- ### claims -/

/-- C7: for every single AST node n and indentation, ast_to_source renders
it exactly as the one-element sequence containing it, and ast_to_object
treats it exactly as the one-element sequence containing it (compiler.py,
lines 47..48 and 100..101 normalize a bare node into a one-element
tuple). -/
theorem ast_to_source_single_eq_seq {Node V : Type}
    (visit : String → Node → Text)
    (loader : String → Text → Except String (PyDict V))
    (createSourceMap : List Node → Text → String → List Int → V)
    (fname : String) (n : Node) (ind : String) (b : Bool)
    (pre : Option String) (d : Bool) :
    ast_to_source visit (.single n) ind = ast_to_source visit (.seq [n]) ind ∧
    ast_to_object visit loader createSourceMap fname (.single n) ind b pre d
      = ast_to_object visit loader createSourceMap fname (.seq [n]) ind b pre d :=
  ⟨rfl, rfl⟩

/-- C5: the node index list handed to origin_info.create_source_map is
`range(-len(nodes), 0)`: for a caller-supplied sequence of N nodes the
trailing N negative offsets -N, -N+1, ..., -1, and for a caller-supplied
single node the single index -1 denoting the last element (compiler.py,
lines 112..115). -/
theorem ast_to_object_source_map_indices {Node : Type} (ns : List Node) (n : Node) :
    astToObjectIndices (.seq ns)
      = (List.range ns.length).map (fun i => (i : Int) - (ns.length : Int)) ∧
    astToObjectIndices (.single n) = [-1] := by
  constructor
  · simp only [astToObjectIndices, pyRange, normalizeInput]
    have h1 : ((0 : Int) - (-(ns.length : Int))).toNat = ns.length := by omega
    rw [h1]
    refine List.map_congr_left (fun i _ => ?_)
    omega
  · simp only [astToObjectIndices, pyRange, normalizeInput, List.length_cons,
      List.length_nil]
    norm_num
    rfl

/-- C8: ast_to_source is a deterministic function of the ordered per-node
renderings: any two generator instances that render the nodes of the input
identically yield byte-identical source text (compiler.py, lines 36..70:
the nodes are traversed in list order and the result depends on nothing
else). -/
theorem ast_to_source_deterministic {Node : Type}
    (v1 v2 : String → Node → Text) (input : ASTInput Node) (ind : String)
    (h : ∀ n ∈ normalizeInput input, v1 ind n = v2 ind n) :
    ast_to_source v1 input ind = ast_to_source v2 input ind := by
  unfold ast_to_source rawCode
  rw [List.map_congr_left (fun n hn => by rw [h n hn])]

/-- Witness for C8 at concrete input: the two renderers agree on the node
`true` (and differ on `false`), so the outputs coincide. -/
theorem ast_to_source_deterministic_witness :
    ast_to_source visitTwo (.seq [true]) "  "
      = ast_to_source visitTwoAlt (.seq [true]) "  " :=
  ast_to_source_deterministic visitTwo visitTwoAlt (.seq [true]) "  " (by decide)

/-- C2: if the accumulated rendering splits into a block of blank lines
followed by a first non-blank line L and the remaining lines, ast_to_source
returns exactly the text starting at L, with everything at or after L
(blank lines included) preserved verbatim; in particular the returned text
never starts with a blank line (compiler.py, lines 62..68). -/
theorem ast_to_source_strips_leading_blank_lines {Node : Type}
    (visit : String → Node → Text) (input : ASTInput Node) (ind : String)
    (blanks : List Text) (L : Text) (rest : List Text)
    (hsplit : splitNl (rawCode visit (normalizeInput input) ind)
      = blanks ++ L :: rest)
    (hblanks : ∀ b ∈ blanks, isBlank b = true)
    (hL : isBlank L = false) :
    ast_to_source visit input ind = joinNl (L :: rest) := by
  unfold ast_to_source
  rw [hsplit, trimLoop_eq_dropWhile, dropWhile_append_all _ _ hblanks]
  simp [List.dropWhile, hL]

/-- Witness for C2 at concrete input: the renderer emits one blank line
before `x = 1`, and the result starts exactly at `x = 1`. -/
theorem ast_to_source_strips_leading_blank_lines_witness :
    ast_to_source visitFun (.single ()) "  " = joinNl ("x = 1".data :: [[]]) :=
  ast_to_source_strips_leading_blank_lines visitFun (.single ()) "  "
    [[]] ("x = 1".data) [[]] (by decide) (by decide) (by decide)

/-- C6: for an ordered pair of nodes [A, B], the rendered text of the
sequence is the rendering of A, a newline separator, then the rendering of
B, in that order (compiler.py, lines 52..56).  The hypotheses record the
shape the astor SourceGenerator gives each statement rendering: A's
rendering contains a non-blank line, and B's rendering is one leading
newline followed by a non-blank first line. -/
theorem ast_to_source_seq_concat {Node : Type}
    (visit : String → Node → Text) (A B : Node) (ind : String)
    (hdB : Text) (restB : List Text)
    (hA : (splitNl (visit ind A)).dropWhile isBlank ≠ [])
    (hB : splitNl (visit ind B) = [] :: hdB :: restB)
    (hBnb : isBlank hdB = false) :
    ast_to_source visit (.seq [A, B]) ind
      = ast_to_source visit (.single A) ind
        ++ '\n' :: ast_to_source visit (.single B) ind := by
  simp only [ast_to_source, trimLoop_eq_dropWhile, normalizeInput, rawCode,
    List.map, List.flatten, List.append_nil, List.append_assoc,
    List.singleton_append]
  rw [splitNl_append, splitNl_append, splitNl_append]
  have hsnil : splitNl [] = [[]] := rfl
  rw [hsnil, hB]
  rw [dropWhile_append_of_ne_nil _ _ hA, dropWhile_append_of_ne_nil _ _ hA]
  have hall : List.all hdB pyIsSpace = false := hBnb
  have hBdrop : (([] :: hdB :: restB) ++ [[]] : List Text).dropWhile isBlank
      = hdB :: (restB ++ [[]]) := by
    simp [List.dropWhile, isBlank, hall]
  rw [hBdrop]
  rw [joinNl_append _ _ hA (by simp), joinNl_append _ _ hA (by simp)]
  have hj1 : joinNl ([[]] : List Text) = [] := rfl
  rw [hj1]
  have hj2 : joinNl (([] :: hdB :: restB) ++ [[]] : List Text)
      = '\n' :: joinNl ((hdB :: restB) ++ [[]]) := by
    rw [show (([] :: hdB :: restB : List Text) ++ [[]])
      = [] :: ((hdB :: restB) ++ [[]]) from by simp]
    cases h : (hdB :: restB : List Text) ++ [[]] with
    | nil => simp at h
    | cons z zs => simp [joinNl, h]
  rw [hj2]
  simp

/-- Witness for C6 at concrete input: rendering [x = 1, y = 2] equals the
rendering of the first, a newline, then the rendering of the second. -/
theorem ast_to_source_seq_concat_witness :
    ast_to_source visitTwo (.seq [true, false]) "  "
      = ast_to_source visitTwo (.single true) "  "
        ++ '\n' :: ast_to_source visitTwo (.single false) "  " :=
  ast_to_source_seq_concat visitTwo true false "  " ("y = 2".data) []
    (by decide) (by decide) (by decide)

/-- C1: when the loaded unit's namespace already binds the reserved key
'ag_source_map__', ast_to_object with include_source_map fails with a
collision error naming the offending unit and the reserved key, the error
carries the namespace exactly as loaded (no binding is overwritten), and no
attach effect is performed (compiler.py, lines 129..135). -/
theorem ast_to_object_collision_fails {Node V : Type}
    (visit : String → Node → Text)
    (loader : String → Text → Except String (PyDict V))
    (createSourceMap : List Node → Text → String → List Int → V)
    (fname : String) (input : ASTInput Node) (ind : String)
    (pre : Option String) (d : Bool) (ns : PyDict V)
    (hload : loader (moduleNameOf fname) (fullSource visit input ind pre)
      = .ok ns)
    (hcol : (ns.lookup reservedKey).isSome = true) :
    (ast_to_object visit loader createSourceMap fname input ind true pre d).outcome
        = .error (.collision (moduleNameOf fname) reservedKey ns) ∧
    Ev.attachSourceMap
        ∉ (ast_to_object visit loader createSourceMap fname input ind true pre d).trace := by
  simp only [ast_to_object]
  rw [hload]
  simp only [hcol, if_true]
  constructor
  · trivial
  · cases d <;> decide

/-- Witness for C1 at concrete input: the loaded namespace already binds
'ag_source_map__', and the call fails with the collision error carrying the
unit name, the key and the unchanged namespace. -/
theorem ast_to_object_collision_fails_witness :
    (ast_to_object visitFun loaderClash smZero "/tmp/tmpabc.py" (.single ())
        "  " true none true).outcome
      = .error (.collision (moduleNameOf "/tmp/tmpabc.py") reservedKey
          [("f", 1), ("ag_source_map__", 9)]) :=
  (ast_to_object_collision_fails visitFun loaderClash smZero "/tmp/tmpabc.py"
    (.single ()) "  " none true [("f", 1), ("ag_source_map__", 9)]
    rfl (by decide)).1

/-- C9: when the reserved key is absent, ast_to_object attaches the source
map and the namespace afterwards has exactly one new binding — the reserved
key mapped to the computed source map — while the lookup of every other key
is unchanged and the key list gains only the reserved key (compiler.py,
lines 129..135). -/
theorem ast_to_object_attach_frame {Node V : Type}
    (visit : String → Node → Text)
    (loader : String → Text → Except String (PyDict V))
    (createSourceMap : List Node → Text → String → List Int → V)
    (fname : String) (input : ASTInput Node) (ind : String)
    (pre : Option String) (d : Bool) (ns : PyDict V)
    (hload : loader (moduleNameOf fname) (fullSource visit input ind pre)
      = .ok ns)
    (habs : ns.lookup reservedKey = none) :
    (ast_to_object visit loader createSourceMap fname input ind true pre d).outcome
        = .ok (ns ++ [(reservedKey,
            createSourceMap (normalizeInput input) (fullSource visit input ind pre)
              fname (astToObjectIndices input))],
          fullSource visit input ind pre) ∧
    (ns ++ [(reservedKey,
        createSourceMap (normalizeInput input) (fullSource visit input ind pre)
          fname (astToObjectIndices input))]).lookup reservedKey
      = some (createSourceMap (normalizeInput input) (fullSource visit input ind pre)
          fname (astToObjectIndices input)) ∧
    (∀ k, k ≠ reservedKey →
      (ns ++ [(reservedKey,
          createSourceMap (normalizeInput input) (fullSource visit input ind pre)
            fname (astToObjectIndices input))]).lookup k = ns.lookup k) ∧
    (ns ++ [(reservedKey,
        createSourceMap (normalizeInput input) (fullSource visit input ind pre)
          fname (astToObjectIndices input))]).map Prod.fst
      = ns.map Prod.fst ++ [reservedKey] := by
  refine ⟨?_, lookup_append_self ns reservedKey _ habs,
    fun k hk => lookup_append_other ns reservedKey _ k hk, by simp⟩
  simp only [ast_to_object]
  rw [hload]
  simp [habs]

/-- Witness for C9 at concrete input: attachment adds exactly the reserved
binding and leaves the binding of "f" unchanged. -/
theorem ast_to_object_attach_frame_witness :
    (ast_to_object visitFun loaderPlain smZero "/tmp/tmpabc.py" (.single ())
        "  " true none true).outcome
      = .ok ([("f", 1)] ++ [(reservedKey,
            smZero (normalizeInput (.single ()))
              (fullSource visitFun (.single ()) "  " none) "/tmp/tmpabc.py"
              (astToObjectIndices (.single ())))],
          fullSource visitFun (.single ()) "  " none) ∧
    ([("f", 1)] ++ [(reservedKey,
        smZero (normalizeInput (.single ()))
          (fullSource visitFun (.single ()) "  " none) "/tmp/tmpabc.py"
          (astToObjectIndices (.single ())))]).lookup "f"
      = ([("f", 1)] : PyDict Nat).lookup "f" :=
  ⟨(ast_to_object_attach_frame visitFun loaderPlain smZero "/tmp/tmpabc.py"
      (.single ()) "  " none true [("f", 1)] rfl (by decide)).1,
   (ast_to_object_attach_frame visitFun loaderPlain smZero "/tmp/tmpabc.py"
      (.single ()) "  " none true [("f", 1)] rfl (by decide)).2.2.1 "f"
     (by decide)⟩

/-- C3 counterexample: with the supplied prefix equal to the empty string,
the returned source text is the rendered AST text alone and does not begin
with the prefix followed by one newline — Python's `if source_prefix:` is
falsy on the empty string, so nothing is prepended (compiler.py, lines
105..106). -/
theorem ast_to_object_empty_prefix_counterexample :
    (ast_to_object visitFun loaderEmpty smZero "/tmp/tmpabc.py" (.single ())
        "  " false (some "") true).outcome = .ok ([], "x = 1\n".data) ∧
    (("".data ++ ['\n']).isPrefixOf ("x = 1\n".data)) = false := by
  constructor
  · rfl
  · decide

/-- C3 (amended): for every *non-empty* supplied prefix, the source text
returned by ast_to_object begins with exactly that prefix followed by one
newline followed by the rendered AST text, inserted verbatim; and the node
index list passed to the provenance collaborator is computed from the
normalized node sequence alone (the trailing negative offsets), never from
the prefix (compiler.py, lines 105..106 and 112..115). -/
theorem ast_to_object_prefix_isolation {Node V : Type}
    (visit : String → Node → Text)
    (loader : String → Text → Except String (PyDict V))
    (createSourceMap : List Node → Text → String → List Int → V)
    (fname : String) (input : ASTInput Node) (ind : String)
    (d : Bool) (ns : PyDict V) (p : String)
    (hp : p.data.isEmpty = false)
    (hload : loader (moduleNameOf fname) (fullSource visit input ind (some p))
      = .ok ns) :
    fullSource visit input ind (some p)
        = p.data ++ '\n' :: fullSource visit input ind none ∧
    (ast_to_object visit loader createSourceMap fname input ind false (some p) d).outcome
        = .ok (ns, p.data ++ '\n' :: fullSource visit input ind none) ∧
    astToObjectIndices input
        = (List.range (normalizeInput input).length).map
            (fun i => (i : Int) - ((normalizeInput input).length : Int)) := by
  have h1 : fullSource visit input ind (some p)
      = p.data ++ '\n' :: fullSource visit input ind none := by
    simp [fullSource, hp]
  refine ⟨h1, ?_, ?_⟩
  · simp only [ast_to_object]
    rw [hload]
    simp [h1]
  · simp only [astToObjectIndices, pyRange]
    have h2 : ((0 : Int) - (-((normalizeInput input).length : Int))).toNat
        = (normalizeInput input).length := by omega
    rw [h2]
    refine List.map_congr_left (fun i _ => ?_)
    omega

/-- Witness for the amended C3 at concrete input: a non-empty prefix is
prepended verbatim with one separating newline. -/
theorem ast_to_object_prefix_isolation_witness :
    fullSource visitFun (.single ()) "  " (some "import os")
        = "import os".data ++ '\n' :: fullSource visitFun (.single ()) "  " none ∧
    (ast_to_object visitFun loaderEmpty smZero "/tmp/tmpabc.py" (.single ())
        "  " false (some "import os") true).outcome
        = .ok ([], "import os".data ++ '\n' :: fullSource visitFun (.single ()) "  " none) ∧
    astToObjectIndices (ASTInput.single () : ASTInput Unit)
        = (List.range (normalizeInput (ASTInput.single () : ASTInput Unit)).length).map
            (fun i => (i : Int)
              - ((normalizeInput (ASTInput.single () : ASTInput Unit)).length : Int)) :=
  ast_to_object_prefix_isolation visitFun loaderEmpty smZero "/tmp/tmpabc.py"
    (.single ()) "  " true [] "import os" (by decide) rfl

/-- C4 counterexample: in a concrete include_source_map run, the source map
is computed (inside the `with` block, compiler.py line 118) strictly before
the module is loaded (line 123), so the claimed order "load, then compute
the provenance map" does not hold. -/
theorem ast_to_object_order_counterexample :
    (ast_to_object visitFun loaderPlain smZero "/tmp/tmpabc.py" (.single ())
        "  " true none true).trace
      = [Ev.createArtifact, Ev.writeArtifact, Ev.computeSourceMap,
         Ev.registerAtexit, Ev.loadModule, Ev.attachSourceMap] ∧
    ¬ ((ast_to_object visitFun loaderPlain smZero "/tmp/tmpabc.py" (.single ())
        "  " true none true).trace.indexOf Ev.loadModule
      < (ast_to_object visitFun loaderPlain smZero "/tmp/tmpabc.py" (.single ())
        "  " true none true).trace.indexOf Ev.computeSourceMap) := by
  constructor
  · rfl
  · decide

/-- C4 (amended): within one include_source_map call the strict order is:
the artifact is created and fully written, then the source map is computed,
then (after the optional atexit registration) the artifact is loaded, then
the map is attached; no reordering occurs (compiler.py, lines 108..135). -/
theorem ast_to_object_effect_order {Node V : Type}
    (visit : String → Node → Text)
    (loader : String → Text → Except String (PyDict V))
    (createSourceMap : List Node → Text → String → List Int → V)
    (fname : String) (input : ASTInput Node) (ind : String)
    (pre : Option String) (d : Bool) (ns : PyDict V)
    (hload : loader (moduleNameOf fname) (fullSource visit input ind pre)
      = .ok ns)
    (habs : ns.lookup reservedKey = none) :
    (ast_to_object visit loader createSourceMap fname input ind true pre d).trace
      = [Ev.createArtifact, Ev.writeArtifact, Ev.computeSourceMap]
        ++ (if d then [Ev.registerAtexit] else [])
        ++ [Ev.loadModule, Ev.attachSourceMap] := by
  simp only [ast_to_object]
  rw [hload]
  simp [habs]

/-- Witness for the amended C4 at concrete input. -/
theorem ast_to_object_effect_order_witness :
    (ast_to_object visitFun loaderPlain smZero "/tmp/tmpabc.py" (.single ())
        "  " true none true).trace
      = [Ev.createArtifact, Ev.writeArtifact, Ev.computeSourceMap]
        ++ (if true then [Ev.registerAtexit] else [])
        ++ [Ev.loadModule, Ev.attachSourceMap] :=
  ast_to_object_effect_order visitFun loaderPlain smZero "/tmp/tmpabc.py"
    (.single ()) "  " none true [("f", 1)] rfl (by decide)

/-- C10: when delete_on_exit is true, the atexit deletion of the artifact
is registered strictly before the load is attempted, for every loader —
including a failing one — so cleanup is scheduled even if loading the
generated text fails (compiler.py, lines 120..123). -/
theorem ast_to_object_registers_cleanup_before_load {Node V : Type}
    (visit : String → Node → Text)
    (loader : String → Text → Except String (PyDict V))
    (createSourceMap : List Node → Text → String → List Int → V)
    (fname : String) (input : ASTInput Node) (ind : String)
    (b : Bool) (pre : Option String) (d : Bool)
    (hdel : d = true) :
    Ev.loadModule
        ∈ (ast_to_object visit loader createSourceMap fname input ind b pre d).trace ∧
    Ev.registerAtexit
        ∈ ((ast_to_object visit loader createSourceMap fname input ind b pre d).trace.takeWhile
            (fun e => e != Ev.loadModule)) := by
  subst hdel
  simp only [ast_to_object]
  cases hl : loader (moduleNameOf fname) (fullSource visit input ind pre) with
  | error e => cases b <;> simp [List.takeWhile] <;> decide
  | ok ns =>
    cases b
    · simp [List.takeWhile]
      decide
    · by_cases hc : (ns.lookup reservedKey).isSome
      · simp [hc, List.takeWhile]
        decide
      · simp [hc, List.takeWhile]
        decide

/-- Witness for C10 at concrete input with a failing loader: the load is
attempted and the atexit registration occurs before it. -/
theorem ast_to_object_registers_cleanup_before_load_witness :
    Ev.loadModule
        ∈ (ast_to_object visitFun loaderBroken smZero "/tmp/tmpabc.py"
            (.single ()) "  " false none true).trace ∧
    Ev.registerAtexit
        ∈ ((ast_to_object visitFun loaderBroken smZero "/tmp/tmpabc.py"
            (.single ()) "  " false none true).trace.takeWhile
            (fun e => e != Ev.loadModule)) :=
  ast_to_object_registers_cleanup_before_load visitFun loaderBroken smZero
    "/tmp/tmpabc.py" (.single ()) "  " false none true rfl
